import Mathlib

/-!
Verification of the neural-prnu-extractor data pipeline.

This file gives a shallow embedding, in Lean 4, of the core functions of
`src/ffdnet/dataset.py` and `src/ffdnet/utils/train_utils.py`, and proves
or refutes the specification claims about them.

Modelling conventions:
* numpy arrays are embedded as a record of explicit dimensions plus a total
  value function (values outside the declared dimensions are irrelevant
  junk; every theorem only inspects in-range indices);
* machine floats are embedded as exact rationals, except in the noise
  estimator where the NaN behaviour matters: there a pixel is either a
  finite rational or NaN (`FVal`), with NaN absorbing under addition, which
  is exactly the behaviour the `np.sum`-is-NaN check in the source relies on;
* randomness (`np.random.shuffle`, `random.shuffle`) is embedded by passing
  the outcome of the random draw - a permutation - as an explicit argument;
* calls into external libraries (cv2, scipy's wiener, skimage's
  denoise_wavelet and estimate_sigma, h5py's on-disk format) are embedded as
  opaque function parameters: the claims under verification are about the
  repository's own control and data flow around those calls;
* Python exceptions (NameError, ZeroDivisionError, AssertionError,
  IndexError) are embedded as `Except.error` with the message text.
-/

/-- A numpy 3-dimensional float array: explicit shape plus value function.
Mirrors the `(C, H, W)` image arrays of `dataset.py`. -/
structure NpArr3 where
  d0 : Nat
  d1 : Nat
  d2 : Nat
  val : Nat → Nat → Nat → ℚ

/-- A numpy 4-dimensional float array, mirroring the `(C, win, win, N)`
patch arrays produced by `img_to_patches`. -/
structure NpArr4 where
  d0 : Nat
  d1 : Nat
  d2 : Nat
  d3 : Nat
  val : Nat → Nat → Nat → Nat → ℚ

/-- Number of elements of the numpy slice `l[start:stop:step]` on an axis of
length `len` (for `step ≥ 1`): numpy clamps `stop` to the axis length and
then counts `⌈(stop - start) / step⌉`, which is 0 when `start ≥ stop`. -/
def npSliceCount (start stop step len : Nat) : Nat :=
  (min stop len - start + step - 1) / step

/-- Embedding of `img_to_patches` (dataset.py lines 25-46).

The source takes the strided slice
`img[:, i:endw-win+i+1:stride, j:endh-win+j+1:stride]` for each offset
`(i, j)` with `i, j < win`, flattens it row-major into `res[:, k, :]`
(`k = i*win + j`) and finally reshapes to `(endc, win, win, total_pat_num)`,
with `total_pat_num` computed from the slice at offset `(0, 0)`.
Pointwise, entry `(c, i, j, p)` of the result is the image pixel
`img[c][i + (p / cols) * stride][j + (p % cols) * stride]` where `cols` is
the number of strided positions along the last axis; the dimensions are
taken over verbatim from the source's shape computations. -/
def img_to_patches (img : NpArr3) (win : Nat) (stride : Nat) : NpArr4 :=
  let endc := img.d0
  let endw := img.d1
  let endh := img.d2
  let rows := npSliceCount 0 (endw - win + 1) stride endw
  let cols := npSliceCount 0 (endh - win + 1) stride endh
  let total_pat_num := rows * cols
  { d0 := endc
    d1 := win
    d2 := win
    d3 := total_pat_num
    val := fun c i j p => img.val c (i + p / cols * stride) (j + p % cols * stride) }

/-- The patch slice `patches[:, :, :, nx]` (dataset.py line 106). -/
def patchAt (arr : NpArr4) (nx : Nat) : NpArr3 :=
  { d0 := arr.d0
    d1 := arr.d1
    d2 := arr.d2
    val := fun c i j => arr.val c i j nx }

/-- Embedding of `np.random.shuffle(patches)` (dataset.py line 101): numpy's
shuffle permutes an array **along its first axis only**.  The outcome of the
random draw is the permutation `σ` of the first-axis indices, passed
explicitly. -/
def npShuffle (σ : Nat → Nat) (arr : NpArr4) : NpArr4 :=
  { arr with val := fun c i j p => arr.val (σ c) i j p }

/-- Equality of two 3-d arrays as data: same shape and same values at every
in-range index ("bit-identical" entries). -/
def patchEqOn (a b : NpArr3) : Prop :=
  a.d0 = b.d0 ∧ a.d1 = b.d1 ∧ a.d2 = b.d2 ∧
    ∀ c, c < a.d0 → ∀ i, i < a.d1 → ∀ j, j < a.d2 → a.val c i j = b.val c i j

/-- Embedding of the inner storing loop of `prepare_data`
(dataset.py lines 102-113):

```
nx = 0
n_patches = patches.shape[3]
already_picked = False
while nx < n_patches and nx < patches_per_file:
  data = patches[:, :, :, nx]
  h5f.create_dataset(str(train_num), data=data)
  train_num += 1
  if reminder > 0 and not already_picked:
    reminder -= 1
    already_picked = True
  else:
    nx += 1
```

The result is the list of patches written to the store for this file, in
key order (`train_num` increments by one per write, so list positions map
to consecutive store keys), together with the updated `reminder`. -/
def storeLoop (P : NpArr4) (ppf : Nat) (nx : Nat) (already : Bool) (rem : Nat) :
    List NpArr3 × Nat :=
  if h : nx < P.d3 ∧ nx < ppf then
    let data := patchAt P nx
    if h2 : 0 < rem ∧ already = false then
      let r := storeLoop P ppf nx true (rem - 1)
      (data :: r.1, r.2)
    else
      let r := storeLoop P ppf (nx + 1) already rem
      (data :: r.1, r.2)
  else
    ([], rem)
termination_by (ppf - nx) + (cond already 0 1)
decreasing_by
  · rw [h2.2]
    simp
  · cases already <;> simp <;> omega

/-- The storing loop as entered for one file: `nx = 0`,
`already_picked = False`. -/
def storeFile (P : NpArr4) (ppf : Nat) (rem : Nat) : List NpArr3 × Nat :=
  storeLoop P ppf 0 false rem

/-- Embedding of the per-file training loop of `prepare_data`
(dataset.py lines 87-115): each file is loaded, colour-converted and
normalized (external collaborators, so each file is given directly as its
normalized `(C, H, W)` image), patches are extracted, `np.random.shuffle`
is applied (this file's random outcome `σ` travels with the file), and the
storing loop runs, threading `reminder` through the files in order.
Returns the per-file lists of written patches (the store content is their
concatenation, in key order) and the final `reminder`. -/
def processFiles : List (NpArr3 × (Nat → Nat)) → Nat → Nat → Nat → Nat →
    List (List NpArr3) × Nat
  | [], _, _, _, rem => ([], rem)
  | (im, σ) :: rest, patch_size, stride, ppf, rem =>
      let patches := npShuffle σ (img_to_patches im patch_size stride)
      let r1 := storeFile patches ppf rem
      let r2 := processFiles rest patch_size stride ppf r1.2
      (r1.1 :: r2.1, r2.2)

/-- Embedding of `prepare_data` (dataset.py lines 48-145) as a whole.

`files` are the (sorted) training images, each paired with the outcome of
its `np.random.shuffle` draw; `vals` are the validation images.  With no
training file the quota computation `total_patches // n_files` raises
`ZeroDivisionError`.  Otherwise the training store and the validation store
are built, and then the final summary `print` at line 144 references the
name `train_patches`, which is defined nowhere in the module, so the call
raises `NameError` (and indeed the function body contains no `return`
statement at all). -/
def prepare_data (files : List (NpArr3 × (Nat → Nat))) (vals : List NpArr3)
    (patch_size : Nat) (stride : Nat) (total_patches : Nat) :
    Except String (Nat × Nat) :=
  let n_files := files.length
  if n_files = 0 then
    Except.error "ZeroDivisionError: integer division or modulo by zero"
  else
    let patches_per_file := total_patches / n_files
    let reminder := total_patches % n_files
    let train := (processFiles files patch_size stride patches_per_file reminder).1
    let _train_num := train.flatten.length
    let _val_num := vals.length
    Except.error "NameError: name train_patches is not defined"

/-- The consecutive patch slices `patchAt P a, patchAt P (a+1), ...,
patchAt P (b-1)`; the shape the storing loop's output takes when no
remainder duplication happens. -/
def takeFrom (P : NpArr4) (a : Nat) (b : Nat) : List NpArr3 :=
  (List.range (b - a)).map (fun t => patchAt P (a + t))

/-! ## Noise estimator (`train_utils.py`)

Pixel values here must distinguish NaN, because `estimate_noise` branches
on `np.isnan(np.sum(filtered))`.  A value is a finite rational or NaN, and
NaN is absorbing under addition, exactly as for IEEE floats. -/

/-- A float value: finite (exact rational) or NaN. -/
inductive FVal where
  | num : ℚ → FVal
  | nan : FVal
deriving DecidableEq

/-- Float addition restricted to what matters here: NaN absorbs. -/
def FVal.add : FVal → FVal → FVal
  | FVal.num a, FVal.num b => FVal.num (a + b)
  | _, _ => FVal.nan

/-- Float subtraction; NaN absorbs. -/
def FVal.sub : FVal → FVal → FVal
  | FVal.num a, FVal.num b => FVal.num (a - b)
  | _, _ => FVal.nan

/-- The NaN test `np.isnan`. -/
def FVal.isNaN : FVal → Bool
  | FVal.nan => true
  | FVal.num _ => false

/-- `np.sum` over (the flattening of) an array: a NaN anywhere makes the
sum NaN. -/
def npSum (l : List FVal) : FVal := l.foldl FVal.add (FVal.num 0)

/-- Pointwise image subtraction, used to express the residual
`noisy - estimated_clean` that the spec talks about. -/
def listSub (a b : List FVal) : List FVal := List.zipWith FVal.sub a b

/-- The `Estimator` enum of train_utils.py (lines 14-20). -/
inductive EstimatorEnum where
  | WIENER
  | WAVELET
deriving DecidableEq

/-- The Python argument passed as `method`: either an `Estimator` member or
some other Python value (whose `repr` we carry as a string); the source
checks `isinstance(method, Estimator)`. -/
inductive MethodArg where
  | est : EstimatorEnum → MethodArg
  | other : String → MethodArg
deriving DecidableEq

/-- The `isinstance(method, Estimator)` test (train_utils.py line 262). -/
def isEstimatorArg : MethodArg → Bool
  | MethodArg.est _ => true
  | MethodArg.other _ => false

/-- `wavelet_options` (train_utils.py line 260). -/
def wavelet_options : List String := ["BayesShrink", "VisuShrink"]

/-- The message of the first `assert False` (train_utils.py line 263): the
format argument is the list of public `Estimator.__dict__` keys. -/
def estimatorMsg : String :=
  "Unknown noise estimator, please specify one of those listed in ['WIENER', 'WAVELET']"

/-- The message of the second `assert False` (train_utils.py line 266). -/
def waveletMsg : String :=
  "Unknown wavelet method, please specify one of those listed in ['BayesShrink', 'VisuShrink']"

/-- The external library calls made by `estimate_noise`, passed in as
opaque collaborators: `scipy.signal.wiener` (already applied to the fixed
kernel size), `skimage.restoration.denoise_wavelet` (taking the method
name, the `multichannel` flag and the `convert2ycbcr` flag), and
`skimage.restoration.estimate_sigma`.  Images travel flattened; each
sample of the batch is one `List FVal` (the `squeeze`/`expand_dims` shape
bookkeeping of the source is the identity on the flattened data). -/
structure NoiseEnv where
  wienerFilter : List FVal → List FVal
  waveletFilter : String → Bool → Bool → List FVal → List FVal
  estimate_sigma : List FVal → FVal

/-- The per-sample filtering branch of `estimate_noise`
(train_utils.py lines 292-296).  The `other` case is unreachable: the
`isinstance` assert has already fired. -/
def filteredOf (env : NoiseEnv) (method : MethodArg) (convert2ycbcr : Bool)
    (wavelet_method : String) (multichannel : Bool) (image : List FVal) :
    List FVal :=
  match method with
  | MethodArg.est EstimatorEnum.WIENER => env.wienerFilter image
  | MethodArg.est EstimatorEnum.WAVELET =>
      env.waveletFilter wavelet_method multichannel convert2ycbcr image
  | MethodArg.other _ => []

/-- Embedding of `estimate_noise` (train_utils.py lines 244-311).

Control flow follows the source: the two `assert False` validations run
first (before any image data is inspected or any filter invoked); then for
each sample the chosen filter runs, `np.isnan(np.sum(filtered))` is
tested, a NaN result replaces `filtered` by the input image, the sigma is
`estimate_sigma(image)` on the non-NaN path and the literal `0` otherwise,
and the pair of result arrays is returned.  `multichannel` is computed in
the source from `shape[3] > 1`; shapes being elided in the flattened
model, it is taken as an argument. -/
def estimate_noise (env : NoiseEnv) (image_list : List (List FVal))
    (method : MethodArg) (convert2ycbcr : Bool) (wavelet_method : String)
    (multichannel : Bool) :
    Except String (List (List FVal) × List FVal) :=
  if isEstimatorArg method = false then
    Except.error estimatorMsg
  else if method = MethodArg.est EstimatorEnum.WAVELET ∧ wavelet_method ∉ wavelet_options then
    Except.error waveletMsg
  else
    let results := image_list.map (fun image =>
      let filtered := filteredOf env method convert2ycbcr wavelet_method multichannel image
      let array_sum := npSum filtered
      let array_has_nan := FVal.isNaN array_sum
      let filtered2 := if array_has_nan = true then image else filtered
      let noise_sigma :=
        if array_has_nan = false then env.estimate_sigma image else FVal.num 0
      (filtered2, noise_sigma))
    Except.ok (results.map Prod.fst, results.map Prod.snd)

/-! ## Random-access dataset (`dataset.py`, class `Dataset`) -/

/-- An h5py store: keys in insertion order with their stored values (the
value type is abstract: the class returns them wrapped in
`torch.Tensor(np.array(.))`, the identity on the data). -/
structure H5Store (α : Type) where
  entries : List (String × α)

/-- `list(h5f.keys())`: the store's keys in order. -/
def H5Store.keysOf {α : Type} (s : H5Store α) : List String :=
  s.entries.map Prod.fst

/-- `h5f[key]`: the value stored under a key. -/
def H5Store.lookup {α : Type} (s : H5Store α) (k : String) : Option α :=
  (s.entries.find? (fun e => e.1 == k)).map Prod.snd

/-- The state held by an open `Dataset` handle: just the key list captured
by `__init__` (the flags `train` and `gray_mode` are stored but never used
by `__len__`/`__getitem__`). -/
structure PyDataset where
  keys : List String

/-- Embedding of `Dataset.__init__` (dataset.py lines 159-170): read the
key list; when `shuffle` is requested apply `random.shuffle`, whose random
outcome is the permutation `σ` of the key list, passed explicitly. -/
def datasetInit {α : Type} (s : H5Store α) (shuffle : Bool)
    (σ : List String → List String) : PyDataset :=
  { keys := if shuffle then σ (H5Store.keysOf s) else H5Store.keysOf s }

/-- Embedding of `Dataset.__len__` (dataset.py lines 174-175). -/
def datasetLen (d : PyDataset) : Nat := d.keys.length

/-- Python list indexing `l[index]`: a negative index has the length added
once; the result must then lie in `[0, len)` or an `IndexError` is raised
(CPython sequence semantics, which is what `self.keys[index]` runs). -/
def pyIndex {α : Type} (l : List α) (index : Int) : Except String α :=
  let j : Int := if index < 0 then index + l.length else index
  if h : 0 ≤ j ∧ j < (l.length : Int) then
    Except.ok (l.get ⟨j.toNat, by omega⟩)
  else
    Except.error "IndexError: list index out of range"

/-- Embedding of `Dataset.__getitem__` (dataset.py lines 182-187): reopen
the store, index into the handle's key list, return the stored value.  The
`KeyError` branch is unreachable when the handle's keys come from the same
store. -/
def datasetGetitem {α : Type} (s : H5Store α) (d : PyDataset) (index : Int) :
    Except String α :=
  match pyIndex d.keys index with
  | Except.error e => Except.error e
  | Except.ok key =>
      match H5Store.lookup s key with
      | some data => Except.ok data
      | none => Except.error "KeyError"

/-! ## Concrete inputs used by counterexamples and witnesses -/

/-- A 1-channel 1x1 image (one extractable 1x1 patch). -/
def img1cex : NpArr3 :=
  { d0 := 1, d1 := 1, d2 := 1, val := fun _ _ _ => 0 }

/-- A 3-channel 1x1 image whose pixel in channel `c` has value `c`. -/
def img3cex : NpArr3 :=
  { d0 := 3, d1 := 1, d2 := 1, val := fun c _ _ => (c : ℚ) }

/-- A 1-channel 2x2 image. -/
def img2cex : NpArr3 :=
  { d0 := 1, d1 := 2, d2 := 2, val := fun _ _ _ => 0 }

/-- The identity outcome of a shuffle draw. -/
def idPerm : Nat → Nat := fun c => c

/-- The shuffle outcome that swaps first-axis indices 0 and 1 (a possible
outcome of `np.random.shuffle` on an axis of length 3). -/
def swap01 : Nat → Nat := fun c => if c = 0 then 1 else if c = 1 then 0 else c

/-- A noise environment for counterexamples: the wiener filter returns the
constant image `[1]`, and the sigma estimator is `npSum`. -/
def envCex : NoiseEnv :=
  { wienerFilter := fun _ => [FVal.num 1]
    waveletFilter := fun _ _ _ _ => []
    estimate_sigma := npSum }

/-- A noise environment whose wiener filter produces a NaN. -/
def envNanCex : NoiseEnv :=
  { wienerFilter := fun _ => [FVal.nan]
    waveletFilter := fun _ _ _ _ => []
    estimate_sigma := fun _ => FVal.num 5 }

/-- A two-entry h5py store. -/
def storeCex : H5Store Nat :=
  { entries := [("0", 10), ("1", 20)] }

/-- The identity outcome of `random.shuffle` on a key list. -/
def idKeys : List String → List String := fun l => l

/-- The reversing outcome of `random.shuffle` on a key list. -/
def revKeys : List String → List String := fun l => l.reverse

/-- The read `h5f[key]` as performed by `__getitem__`, with the
(unreachable) missing-key outcome made explicit. -/
def lookupExcept {α : Type} (s : H5Store α) (k : String) : Except String α :=
  match H5Store.lookup s k with
  | some data => Except.ok data
  | none => Except.error "KeyError"

/-- Does `needle` occur at the start of `hay`? (plain character-list
check, used to state "the message names such-and-such"). -/
def leadsWith : List Char → List Char → Bool
  | [], _ => true
  | _ :: _, [] => false
  | a :: as, b :: bs => a = b && leadsWith as bs

/-- Does `needle` occur contiguously anywhere in `hay`? -/
def containsSub (needle : List Char) : List Char → Bool
  | [] => leadsWith needle []
  | c :: t => leadsWith needle (c :: t) || containsSub needle t

/-! ## Helper lemmas about the storing loop -/

theorem storeLoop_stop (P : NpArr4) (ppf nx : Nat) (already : Bool) (rem : Nat)
    (h : ¬ (nx < P.d3 ∧ nx < ppf)) :
    storeLoop P ppf nx already rem = ([], rem) := by
  rw [storeLoop, dif_neg h]

theorem takeFrom_nil (P : NpArr4) (a b : Nat) (h : b ≤ a) : takeFrom P a b = [] := by
  simp [takeFrom, Nat.sub_eq_zero_of_le h]

theorem takeFrom_cons (P : NpArr4) (a b : Nat) (h : a < b) :
    takeFrom P a b = patchAt P a :: takeFrom P (a + 1) b := by
  unfold takeFrom
  have hb : b - a = (b - (a + 1)) + 1 := by omega
  rw [hb, List.range_succ_eq_map, List.map_cons, List.map_map]
  refine congrArg₂ _ (by simp) ?_
  refine congrArg₂ _ ?_ rfl
  funext t
  simp only [Function.comp_apply]
  refine congrArg _ ?_
  omega

theorem takeFrom_length (P : NpArr4) (a b : Nat) : (takeFrom P a b).length = b - a := by
  simp [takeFrom]

theorem storeLoop_noExtra (P : NpArr4) (ppf : Nat) :
    ∀ k nx (already : Bool) rem, ¬ (0 < rem ∧ already = false) →
      min P.d3 ppf - nx = k →
      storeLoop P ppf nx already rem = (takeFrom P nx (min P.d3 ppf), rem) := by
  intro k
  induction k with
  | zero =>
    intro nx already rem hna hk
    have hstop : ¬ (nx < P.d3 ∧ nx < ppf) := by
      intro hc
      have hlt : nx < min P.d3 ppf := lt_min hc.1 hc.2
      omega
    rw [storeLoop_stop P ppf nx already rem hstop,
      takeFrom_nil P nx (min P.d3 ppf) (by omega)]
  | succ k ih =>
    intro nx already rem hna hk
    have hlt : nx < min P.d3 ppf := by omega
    have hcond : nx < P.d3 ∧ nx < ppf :=
      ⟨lt_of_lt_of_le hlt (min_le_left _ _), lt_of_lt_of_le hlt (min_le_right _ _)⟩
    rw [storeLoop, dif_pos hcond, dif_neg hna,
      ih (nx + 1) already rem hna (by omega), takeFrom_cons P nx _ hlt]

theorem storeFile_eq (P : NpArr4) (ppf rem : Nat) :
    storeFile P ppf rem =
      if 0 < min P.d3 ppf ∧ 0 < rem
      then (patchAt P 0 :: takeFrom P 0 (min P.d3 ppf), rem - 1)
      else (takeFrom P 0 (min P.d3 ppf), rem) := by
  unfold storeFile
  by_cases hc : 0 < min P.d3 ppf ∧ 0 < rem
  · rw [if_pos hc]
    have hcond : 0 < P.d3 ∧ 0 < ppf := by
      constructor
      · exact lt_of_lt_of_le hc.1 (min_le_left _ _)
      · exact lt_of_lt_of_le hc.1 (min_le_right _ _)
    rw [storeLoop, dif_pos hcond, dif_pos ⟨hc.2, rfl⟩,
      storeLoop_noExtra P ppf (min P.d3 ppf) 0 true (rem - 1) (by simp) rfl]
  · rw [if_neg hc]
    rcases Nat.eq_zero_or_pos rem with h0 | hpos
    · subst h0
      exact storeLoop_noExtra P ppf (min P.d3 ppf) 0 false 0 (by simp) rfl
    · have hm : min P.d3 ppf = 0 := by omega
      have hstop : ¬ (0 < P.d3 ∧ 0 < ppf) := by
        intro hcond
        have : 0 < min P.d3 ppf := lt_min hcond.1 hcond.2
        omega
      rw [storeLoop_stop P ppf 0 false rem hstop, hm,
        takeFrom_nil P 0 0 (by omega)]

theorem storeFile_length (P : NpArr4) (ppf rem : Nat)
    (hppf : 0 < ppf) (hd3 : ppf ≤ P.d3) :
    (storeFile P ppf rem).1.length = ppf + (if 0 < rem then 1 else 0)
    ∧ (storeFile P ppf rem).2 = rem - (if 0 < rem then 1 else 0) := by
  have hm : min P.d3 ppf = ppf := min_eq_right hd3
  rw [storeFile_eq, hm]
  by_cases hr : 0 < rem
  · rw [if_pos ⟨hppf, hr⟩, if_pos hr]
    constructor
    · simp [takeFrom_length]
    · rfl
  · rw [if_neg (by intro hcc; exact hr hcc.2), if_neg hr]
    constructor
    · simp [takeFrom_length]
    · omega

theorem processFiles_counts (ps st ppf : Nat) (hppf : 0 < ppf) :
    ∀ (files : List (NpArr3 × (Nat → Nat))) (rem : Nat),
      (∀ f ∈ files, ppf ≤ (img_to_patches f.1 ps st).d3) →
      ((processFiles files ps st ppf rem).1.flatten.length
          = files.length * ppf + min rem files.length)
      ∧ ((processFiles files ps st ppf rem).2 = rem - files.length)
      ∧ (∀ i, i < files.length →
          ((processFiles files ps st ppf rem).1.getD i []).length
            = ppf + (if i < rem then 1 else 0)) := by
  intro files
  induction files with
  | nil =>
    intro rem hcap
    refine ⟨by simp [processFiles], by simp [processFiles], ?_⟩
    intro i hi
    exact absurd hi (by simp)
  | cons f rest ih =>
    intro rem hcap
    obtain ⟨im, σ⟩ := f
    have hd3 : ppf ≤ (npShuffle σ (img_to_patches im ps st)).d3 :=
      hcap (im, σ) (List.mem_cons_self _ _)
    have hsf := storeFile_length (npShuffle σ (img_to_patches im ps st)) ppf rem hppf hd3
    by_cases hr : 0 < rem
    · have h1 : (storeFile (npShuffle σ (img_to_patches im ps st)) ppf rem).1.length
          = ppf + 1 := by
        rw [hsf.1, if_pos hr]
      have h2 : (storeFile (npShuffle σ (img_to_patches im ps st)) ppf rem).2
          = rem - 1 := by
        rw [hsf.2, if_pos hr]
      have hrest := ih (rem - 1) (fun g hg => hcap g (List.mem_cons_of_mem _ hg))
      refine ⟨?_, ?_, ?_⟩
      · simp only [processFiles, h2, List.flatten_cons, List.length_append, h1,
          hrest.1, List.length_cons, add_mul, one_mul]
        omega
      · simp only [processFiles, h2, hrest.2.1, List.length_cons]
        omega
      · intro i hi
        match i with
        | 0 =>
          simp only [processFiles, List.getD_cons_zero, h1, if_pos hr]
        | Nat.succ i =>
          simp only [processFiles, h2, List.getD_cons_succ]
          rw [hrest.2.2 i (by simpa using hi)]
          by_cases hir : i + 1 < rem
          · rw [if_pos (by omega : i < rem - 1), if_pos hir]
          · rw [if_neg (by omega : ¬ i < rem - 1), if_neg hir]
    · have hr0 : rem = 0 := by omega
      subst hr0
      have h1 : (storeFile (npShuffle σ (img_to_patches im ps st)) ppf 0).1.length
          = ppf := by
        rw [hsf.1, if_neg hr]
        omega
      have h2 : (storeFile (npShuffle σ (img_to_patches im ps st)) ppf 0).2 = 0 := by
        rw [hsf.2, if_neg hr]
      have hrest := ih 0 (fun g hg => hcap g (List.mem_cons_of_mem _ hg))
      refine ⟨?_, ?_, ?_⟩
      · simp only [processFiles, h2, List.flatten_cons, List.length_append, h1,
          hrest.1, List.length_cons, add_mul, one_mul]
        omega
      · simp only [processFiles, h2, hrest.2.1, List.length_cons]
        omega
      · intro i hi
        match i with
        | 0 =>
          simp only [processFiles, List.getD_cons_zero, h1, if_neg hr]
          omega
        | Nat.succ i =>
          simp only [processFiles, h2, List.getD_cons_succ]
          rw [hrest.2.2 i (by simpa using hi)]
          simp

theorem processFiles_append (ps st ppf : Nat) :
    ∀ (a b : List (NpArr3 × (Nat → Nat))) (rem : Nat),
      processFiles (a ++ b) ps st ppf rem =
        ((processFiles a ps st ppf rem).1
            ++ (processFiles b ps st ppf (processFiles a ps st ppf rem).2).1,
         (processFiles b ps st ppf (processFiles a ps st ppf rem).2).2) := by
  intro a
  induction a with
  | nil =>
    intro b rem
    simp [processFiles]
  | cons f rest ih =>
    intro b rem
    obtain ⟨im, σ⟩ := f
    simp only [List.cons_append, processFiles, List.append_eq, ih, List.cons_append]

theorem storeFile_ppf_zero (P : NpArr4) (rem : Nat) : storeFile P 0 rem = ([], rem) := by
  rw [storeFile_eq, if_neg (by simp), takeFrom_nil P 0 _ (by simp)]

/-! ## Claims -/

/-- Claim C1 (code bug): `prepare_data` never terminates normally on a
non-empty training directory.  After building the stores, the summary
`print` at dataset.py line 144 references `train_patches`, a name defined
nowhere in the module, so every invocation raises `NameError` (and the
function body contains no `return` statement, so it could not return the
pair of counts in any case). -/
theorem prepare_data_crashes (files : List (NpArr3 × (Nat → Nat)))
    (vals : List NpArr3) (ps st T : Nat) (hn : 1 ≤ files.length) :
    prepare_data files vals ps st T
      = Except.error "NameError: name train_patches is not defined" := by
  unfold prepare_data
  rw [if_neg (by omega)]

theorem prepare_data_crashes_witness :
    1 ≤ ([((img1cex : NpArr3), idPerm)] : List (NpArr3 × (Nat → Nat))).length
    ∧ prepare_data [(img1cex, idPerm)] [] 1 1 1
        = Except.error "NameError: name train_patches is not defined" :=
  ⟨by decide, prepare_data_crashes [(img1cex, idPerm)] [] 1 1 1 (by decide)⟩

/-- Claim C2 (amended): provided `total_patches ≥ n_files` (so the per-file
quota `total_patches // n_files` is at least 1) and every training file
yields at least `total_patches // n_files` patches, the training store
receives exactly `total_patches` entries, and exactly the earliest
`total_patches % n_files` files receive the extra +1 entry beyond the
quota (every later file receives exactly the quota). -/
theorem prepare_data_total (files : List (NpArr3 × (Nat → Nat))) (ps st T : Nat)
    (hn : 1 ≤ files.length) (hT : files.length ≤ T)
    (hcap : ∀ f ∈ files, T / files.length ≤ (img_to_patches f.1 ps st).d3) :
    ((processFiles files ps st (T / files.length) (T % files.length)).1.flatten.length
        = T)
    ∧ (∀ i, i < files.length →
        ((processFiles files ps st (T / files.length) (T % files.length)).1.getD i []).length
          = if i < T % files.length then T / files.length + 1 else T / files.length) := by
  have hq : 0 < T / files.length := Nat.div_pos hT (by omega)
  have hc := processFiles_counts ps st (T / files.length) hq files (T % files.length) hcap
  constructor
  · rw [hc.1]
    have hmod : T % files.length < files.length := Nat.mod_lt _ (by omega)
    have hdm := Nat.div_add_mod T files.length
    omega
  · intro i hi
    rw [hc.2.2 i hi]
    by_cases hir : i < T % files.length
    · rw [if_pos hir, if_pos hir]
    · rw [if_neg hir, if_neg hir]
      omega

theorem prepare_data_total_witness :
    (1 ≤ ([((img2cex : NpArr3), idPerm), (img2cex, idPerm)] : List (NpArr3 × (Nat → Nat))).length)
    ∧ (([((img2cex : NpArr3), idPerm), (img2cex, idPerm)] : List (NpArr3 × (Nat → Nat))).length ≤ 3)
    ∧ (∀ f ∈ ([((img2cex : NpArr3), idPerm), (img2cex, idPerm)] : List (NpArr3 × (Nat → Nat))),
        3 / ([((img2cex : NpArr3), idPerm), (img2cex, idPerm)] : List (NpArr3 × (Nat → Nat))).length
          ≤ (img_to_patches f.1 1 1).d3)
    ∧ ((processFiles [((img2cex : NpArr3), idPerm), (img2cex, idPerm)] 1 1 (3 / 2) (3 % 2)).1.flatten.length
        = 3) := by
  have hcap : ∀ f ∈ ([((img2cex : NpArr3), idPerm), (img2cex, idPerm)] : List (NpArr3 × (Nat → Nat))),
      3 / ([((img2cex : NpArr3), idPerm), (img2cex, idPerm)] : List (NpArr3 × (Nat → Nat))).length
        ≤ (img_to_patches f.1 1 1).d3 := by
    intro f hf
    rcases List.mem_cons.mp hf with h | hf
    · subst h
      decide
    · rcases List.mem_cons.mp hf with h | hf
      · subst h
        decide
      · exact absurd hf (List.not_mem_nil f)
  exact ⟨by decide, by decide, hcap,
    (prepare_data_total [(img2cex, idPerm), (img2cex, idPerm)] 1 1 3
      (by decide) (by decide) hcap).1⟩

/-- Claim C2 counterexample: a run over two one-patch files with
`total_patches = 1`.  The quota is `1 // 2 = 0`, so the storing loop's
condition `nx < patches_per_file` is false at once for every file, nothing
is ever written and the remainder is never consumed: the store receives 0
entries, not `T = 1`. -/
theorem prepare_data_total_cex :
    (processFiles [((img1cex : NpArr3), idPerm), (img1cex, idPerm)] 1 1 (1 / 2) (1 % 2)).1.flatten.length
      ≠ 1 := by
  have h12 : (1 : Nat) / 2 = 0 := by norm_num
  rw [h12]
  simp [processFiles, storeFile_ppf_zero]

/-- Claim C3 (amended): for a window of size at least 1 with
`win ≤ min(H, W)` and `stride ≥ 1`, `img_to_patches` returns a 4-d array
of shape `(C, win, win, N)` with
`N = ((H - win) / stride + 1) * ((W - win) / stride + 1)`, and every patch
slice along the last axis has shape `(C, win, win)`. -/
theorem img_to_patches_shape (img : NpArr3) (win stride : Nat)
    (hwin : 1 ≤ win) (hd1 : win ≤ img.d1) (hd2 : win ≤ img.d2) (hs : 1 ≤ stride) :
    (img_to_patches img win stride).d0 = img.d0
    ∧ (img_to_patches img win stride).d1 = win
    ∧ (img_to_patches img win stride).d2 = win
    ∧ (img_to_patches img win stride).d3
        = ((img.d1 - win) / stride + 1) * ((img.d2 - win) / stride + 1)
    ∧ (∀ nx, (patchAt (img_to_patches img win stride) nx).d0 = img.d0
        ∧ (patchAt (img_to_patches img win stride) nx).d1 = win
        ∧ (patchAt (img_to_patches img win stride) nx).d2 = win) := by
  have hcount : ∀ L, win ≤ L →
      npSliceCount 0 (L - win + 1) stride L = (L - win) / stride + 1 := by
    intro L hL
    unfold npSliceCount
    have hmin : min (L - win + 1) L = L - win + 1 := by omega
    rw [hmin]
    have harith : L - win + 1 - 0 + stride - 1 = (L - win) + stride := by omega
    rw [harith, Nat.add_div_right _ (by omega)]
  refine ⟨rfl, rfl, rfl, ?_, fun nx => ⟨rfl, rfl, rfl⟩⟩
  show npSliceCount 0 (img.d1 - win + 1) stride img.d1
      * npSliceCount 0 (img.d2 - win + 1) stride img.d2 = _
  rw [hcount img.d1 hd1, hcount img.d2 hd2]

theorem img_to_patches_shape_witness :
    (1 ≤ 1 ∧ 1 ≤ img2cex.d1 ∧ 1 ≤ img2cex.d2 ∧ 1 ≤ 1)
    ∧ (img_to_patches img2cex 1 1).d3
        = ((img2cex.d1 - 1) / 1 + 1) * ((img2cex.d2 - 1) / 1 + 1) :=
  ⟨by decide,
   (img_to_patches_shape img2cex 1 1 (by decide) (by decide) (by decide) (by decide)).2.2.2.1⟩

/-- Claim C3 counterexample: the claim as stated quantifies over every
`win ≤ min(H, W)`, including `win = 0`.  On a 1x2x2 image with `win = 0`
and `stride = 2`, the source's slice `img[:, 0:H+1:2, 0:W+1:2]` is clamped
by numpy to the axis length and has 1 position per axis, so the returned
last dimension is 1, while the claimed formula gives
`(2/2 + 1) * (2/2 + 1) = 4`. -/
theorem img_to_patches_shape_cex :
    0 ≤ min img2cex.d1 img2cex.d2 ∧ (1 : Nat) ≤ 2
    ∧ (img_to_patches img2cex 0 2).d3
        ≠ ((img2cex.d1 - 0) / 2 + 1) * ((img2cex.d2 - 0) / 2 + 1) := by
  refine ⟨by decide, by decide, by decide⟩

/-- Claim C10 (confirmed): whenever a file is allocated the extra remainder
patch (a positive remainder reaches it, the quota is positive and it has at
least one patch), the storing loop writes the patch at the current index
`nx = 0` twice without advancing the index, so the training store - the
concatenation of the per-file write lists, with consecutive integer keys -
contains the same patch under two adjacent keys at that file's offset. -/
theorem store_duplicate_adjacent (pre post : List (NpArr3 × (Nat → Nat)))
    (im : NpArr3) (σ : Nat → Nat) (ps st ppf rem : Nat)
    (hrem : 0 < (processFiles pre ps st ppf rem).2)
    (hppf : 0 < ppf)
    (hd3 : 0 < (img_to_patches im ps st).d3) :
    ((processFiles (pre ++ (im, σ) :: post) ps st ppf rem).1.flatten.get?
        ((processFiles pre ps st ppf rem).1.flatten.length)
      = some (patchAt (npShuffle σ (img_to_patches im ps st)) 0))
    ∧ ((processFiles (pre ++ (im, σ) :: post) ps st ppf rem).1.flatten.get?
        ((processFiles pre ps st ppf rem).1.flatten.length + 1)
      = some (patchAt (npShuffle σ (img_to_patches im ps st)) 0)) := by
  have hmin : 0 < min (npShuffle σ (img_to_patches im ps st)).d3 ppf :=
    lt_min hd3 hppf
  have hw : (storeFile (npShuffle σ (img_to_patches im ps st)) ppf
        (processFiles pre ps st ppf rem).2).1
      = patchAt (npShuffle σ (img_to_patches im ps st)) 0
          :: takeFrom (npShuffle σ (img_to_patches im ps st)) 0
              (min (npShuffle σ (img_to_patches im ps st)).d3 ppf) := by
    rw [storeFile_eq, if_pos ⟨hmin, hrem⟩]
  have htf : takeFrom (npShuffle σ (img_to_patches im ps st)) 0
        (min (npShuffle σ (img_to_patches im ps st)).d3 ppf)
      = patchAt (npShuffle σ (img_to_patches im ps st)) 0
          :: takeFrom (npShuffle σ (img_to_patches im ps st)) 1
              (min (npShuffle σ (img_to_patches im ps st)).d3 ppf) := by
    rw [takeFrom_cons _ 0 _ hmin]
  rw [processFiles_append]
  simp only [processFiles]
  rw [List.flatten_append, List.flatten_cons, hw, htf]
  constructor
  · rw [List.get?_append_right (le_refl _)]
    simp
  · rw [List.get?_append_right (by omega)]
    have hidx : (processFiles pre ps st ppf rem).1.flatten.length + 1
        - (processFiles pre ps st ppf rem).1.flatten.length = 1 := by omega
    rw [hidx]
    simp

theorem store_duplicate_adjacent_witness :
    (0 < (processFiles ([] : List (NpArr3 × (Nat → Nat))) 1 1 1 1).2
      ∧ (0 : Nat) < 1
      ∧ 0 < (img_to_patches img1cex 1 1).d3)
    ∧ ((processFiles (([] : List (NpArr3 × (Nat → Nat))) ++ (img1cex, idPerm) :: []) 1 1 1 1).1.flatten.get?
        ((processFiles ([] : List (NpArr3 × (Nat → Nat))) 1 1 1 1).1.flatten.length)
      = some (patchAt (npShuffle idPerm (img_to_patches img1cex 1 1)) 0)) :=
  ⟨⟨by decide, by decide, by decide⟩,
   (store_duplicate_adjacent [] [] img1cex idPerm 1 1 1 1
      (by decide) (by decide) (by decide)).1⟩

/-- Claim C5 (refuted - code bug): `np.random.shuffle(patches)` permutes
the **first** axis of the `(C, win, win, N)` array, i.e. the channels, not
the patch axis `N`.  On the 3-channel 1x1 image whose channel `c` pixel is
`c`, with quota 1 and the channel-transposing shuffle outcome `swap01`,
the single stored patch has channels `(1, 0, 2)` while the only extracted
patch has channels `(0, 1, 2)`: the stored sequence is not a prefix of any
permutation of the extracted patches with channel content unchanged. -/
theorem shuffle_wrong_axis :
    ((storeFile (npShuffle swap01 (img_to_patches img3cex 1 1)) 1 0).1
        = [patchAt (npShuffle swap01 (img_to_patches img3cex 1 1)) 0])
    ∧ (img_to_patches img3cex 1 1).d3 = 1
    ∧ ¬ patchEqOn (patchAt (npShuffle swap01 (img_to_patches img3cex 1 1)) 0)
        (patchAt (img_to_patches img3cex 1 1) 0) := by
  refine ⟨?_, rfl, ?_⟩
  · rw [storeFile_eq, if_neg (by simp)]
    rw [show min (npShuffle swap01 (img_to_patches img3cex 1 1)).d3 1 = 1 from rfl]
    rw [takeFrom_cons _ 0 1 (by omega), takeFrom_nil _ 1 1 (le_refl _)]
  · intro h
    have hv := h.2.2.2 0 (by decide) 0 (by decide) 0 (by decide)
    simp only [patchAt, npShuffle, img_to_patches, img3cex, swap01, npSliceCount] at hv
    norm_num at hv

theorem map_get_pos {α β : Type} (f : α → β) :
    ∀ (l : List α) (i : Nat), i < l.length → ∀ d : α,
      (l.map f).get? i = some (f (l.getD i d))
  | [], i, h, _ => absurd h (by simp)
  | _ :: _, 0, _, _ => rfl
  | _ :: t, i + 1, h, d => by
      simp only [List.map_cons, List.getD_cons_succ]
      show (t.map f).get? i = some (f (t.getD i d))
      exact map_get_pos f t i (by simpa using h) d

/-- Claim C4 (confirmed): in the wiener and wavelet modes, a sample whose
filtered result sums to NaN is returned with the input noisy image as its
"clean" image and sigma exactly 0; a sample without NaN is returned with
the filtered result unchanged and the non-zero-path sigma estimate. -/
theorem estimate_noise_nan_fallback (env : NoiseEnv) (imgs : List (List FVal))
    (e : EstimatorEnum) (c2y : Bool) (wm : String) (mc : Bool)
    (hwm : e = EstimatorEnum.WAVELET → wm ∈ wavelet_options)
    (i : Nat) (hi : i < imgs.length) :
    ∃ cleans sigmas,
      estimate_noise env imgs (MethodArg.est e) c2y wm mc = Except.ok (cleans, sigmas)
      ∧ cleans.get? i
          = some (if FVal.isNaN (npSum (filteredOf env (MethodArg.est e) c2y wm mc (imgs.getD i []))) = true
              then imgs.getD i []
              else filteredOf env (MethodArg.est e) c2y wm mc (imgs.getD i []))
      ∧ sigmas.get? i
          = some (if FVal.isNaN (npSum (filteredOf env (MethodArg.est e) c2y wm mc (imgs.getD i []))) = false
              then env.estimate_sigma (imgs.getD i [])
              else FVal.num 0) := by
  unfold estimate_noise
  rw [if_neg (by simp [isEstimatorArg])]
  rw [if_neg (by
    rintro ⟨hmeq, hnot⟩
    exact hnot (hwm (by injection hmeq)))]
  refine ⟨_, _, rfl, ?_, ?_⟩
  · rw [List.map_map, map_get_pos _ imgs i hi []]
    rfl
  · rw [List.map_map, map_get_pos _ imgs i hi []]
    rfl

theorem estimate_noise_nan_fallback_witness :
    ((EstimatorEnum.WIENER = EstimatorEnum.WAVELET → "BayesShrink" ∈ wavelet_options)
      ∧ 0 < ([[FVal.num 1]] : List (List FVal)).length)
    ∧ ∃ cleans sigmas,
        estimate_noise envNanCex [[FVal.num 1]] (MethodArg.est EstimatorEnum.WIENER) false "BayesShrink" false
          = Except.ok (cleans, sigmas)
        ∧ cleans.get? 0
            = some (if FVal.isNaN (npSum (filteredOf envNanCex (MethodArg.est EstimatorEnum.WIENER) false "BayesShrink" false (([[FVal.num 1]] : List (List FVal)).getD 0 []))) = true
                then ([[FVal.num 1]] : List (List FVal)).getD 0 []
                else filteredOf envNanCex (MethodArg.est EstimatorEnum.WIENER) false "BayesShrink" false (([[FVal.num 1]] : List (List FVal)).getD 0 []))
        ∧ sigmas.get? 0
            = some (if FVal.isNaN (npSum (filteredOf envNanCex (MethodArg.est EstimatorEnum.WIENER) false "BayesShrink" false (([[FVal.num 1]] : List (List FVal)).getD 0 []))) = false
                then envNanCex.estimate_sigma (([[FVal.num 1]] : List (List FVal)).getD 0 [])
                else FVal.num 0) :=
  ⟨⟨by decide, by decide⟩,
   estimate_noise_nan_fallback envNanCex [[FVal.num 1]] EstimatorEnum.WIENER false
     "BayesShrink" false (by decide) 0 (by decide)⟩

/-- Claim C6 (amended): in the wiener and wavelet modes, for a sample whose
filtered result has no NaN, the per-sample sigma is the robust estimator
applied to the **noisy input image itself** (`estimate_sigma(image)` at
train_utils.py line 304), not to the filtered residual. -/
theorem estimate_noise_sigma_source (env : NoiseEnv) (imgs : List (List FVal))
    (e : EstimatorEnum) (c2y : Bool) (wm : String) (mc : Bool)
    (hwm : e = EstimatorEnum.WAVELET → wm ∈ wavelet_options)
    (i : Nat) (hi : i < imgs.length)
    (hnn : FVal.isNaN (npSum (filteredOf env (MethodArg.est e) c2y wm mc (imgs.getD i []))) = false) :
    ∃ cleans sigmas,
      estimate_noise env imgs (MethodArg.est e) c2y wm mc = Except.ok (cleans, sigmas)
      ∧ sigmas.get? i = some (env.estimate_sigma (imgs.getD i [])) := by
  unfold estimate_noise
  rw [if_neg (by simp [isEstimatorArg])]
  rw [if_neg (by
    rintro ⟨hmeq, hnot⟩
    exact hnot (hwm (by injection hmeq)))]
  refine ⟨_, _, rfl, ?_⟩
  rw [List.map_map, map_get_pos _ imgs i hi []]
  simp only [Function.comp_apply, hnn, if_pos]

/-- Claim C6 counterexample: with the wiener filter returning the constant
clean image `[1]` on the noisy input `[2]` and `npSum` standing in for the
robust estimator, the returned sigma is `estimate_sigma(noisy) = 2`, while
the claim's value - the estimator applied to the residual
`noisy - clean = [1]` - is 1: the sigma is not computed from the residual. -/
theorem estimate_noise_sigma_cex :
    (estimate_noise envCex [[FVal.num 2]] (MethodArg.est EstimatorEnum.WIENER) false "BayesShrink" false
        = Except.ok ([[FVal.num 1]], [FVal.num 2]))
    ∧ envCex.estimate_sigma (listSub [FVal.num 2] [FVal.num 1]) = FVal.num 1
    ∧ (FVal.num 2 : FVal) ≠ FVal.num 1 := by
  refine ⟨?_, ?_, by decide⟩
  · simp [estimate_noise, isEstimatorArg, wavelet_options, filteredOf, envCex, npSum,
      FVal.isNaN, FVal.add]
  · simp [envCex, listSub, npSum, FVal.sub, FVal.add]
    norm_num

/-- Claim C7 (amended): an unrecognized `method`, or `method = WAVELET`
with an unrecognized `wavelet_method`, makes `estimate_noise` fail on its
leading asserts, before any filtering or image access: the resulting error
is the same for every filter environment and every image batch (so no
image data influences it and no partial output exists), and its message
names the allowed set - though not the invalid value itself. -/
theorem estimate_noise_validation (env : NoiseEnv) (imgs : List (List FVal))
    (m : MethodArg) (c2y mc : Bool) (wm : String)
    (h : isEstimatorArg m = false
        ∨ (m = MethodArg.est EstimatorEnum.WAVELET ∧ wm ∉ wavelet_options)) :
    ∃ msg, estimate_noise env imgs m c2y wm mc = Except.error msg
      ∧ (isEstimatorArg m = false →
          msg = estimatorMsg
          ∧ containsSub "WIENER".data msg.data = true
          ∧ containsSub "WAVELET".data msg.data = true)
      ∧ (isEstimatorArg m = true →
          msg = waveletMsg
          ∧ containsSub "BayesShrink".data msg.data = true
          ∧ containsSub "VisuShrink".data msg.data = true) := by
  cases hm : isEstimatorArg m with
  | false =>
    refine ⟨estimatorMsg, ?_, ?_, ?_⟩
    · unfold estimate_noise
      rw [if_pos hm]
    · intro _
      exact ⟨rfl, by decide, by decide⟩
    · intro hc
      exact Bool.noConfusion hc
  | true =>
    have hw : m = MethodArg.est EstimatorEnum.WAVELET ∧ wm ∉ wavelet_options := by
      rcases h with h1 | h2
      · rw [hm] at h1
        cases h1
      · exact h2
    refine ⟨waveletMsg, ?_, ?_, ?_⟩
    · unfold estimate_noise
      rw [if_neg (by rw [hm]; simp), if_pos hw]
    · intro hc
      exact Bool.noConfusion hc
    · intro _
      exact ⟨rfl, by decide, by decide⟩

theorem estimate_noise_validation_witness :
    (isEstimatorArg (MethodArg.other "foo") = false
      ∨ (MethodArg.other "foo" = MethodArg.est EstimatorEnum.WAVELET
          ∧ "BayesShrink" ∉ wavelet_options))
    ∧ ∃ msg, estimate_noise envCex [[FVal.num 1]] (MethodArg.other "foo") false "BayesShrink" false
          = Except.error msg
        ∧ (isEstimatorArg (MethodArg.other "foo") = false →
            msg = estimatorMsg
            ∧ containsSub "WIENER".data msg.data = true
            ∧ containsSub "WAVELET".data msg.data = true)
        ∧ (isEstimatorArg (MethodArg.other "foo") = true →
            msg = waveletMsg
            ∧ containsSub "BayesShrink".data msg.data = true
            ∧ containsSub "VisuShrink".data msg.data = true) :=
  ⟨Or.inl (by decide),
   estimate_noise_validation envCex [[FVal.num 1]] (MethodArg.other "foo") false false
     "BayesShrink" (Or.inl (by decide))⟩

/-- Claim C7 counterexample: the invalid method value (here the Python
value rendered "foo") produces the fixed estimator message, and that
message does not contain the invalid value anywhere: the error does not
name the invalid value, only the allowed set. -/
theorem estimate_noise_validation_cex :
    estimate_noise envCex [[FVal.num 1]] (MethodArg.other "foo") false "BayesShrink" false
      = Except.error estimatorMsg
    ∧ containsSub "foo".data estimatorMsg.data = false :=
  ⟨rfl, by decide⟩

/-! ## Helper lemmas about the random-access dataset -/

theorem getD_of_lt {α : Type} :
    ∀ (l : List α) (n : Nat) (h : n < l.length) (d : α), l.getD n d = l.get ⟨n, h⟩
  | _ :: _, 0, _, _ => rfl
  | _ :: t, n + 1, h, d => by
      simp only [List.getD_cons_succ]
      exact getD_of_lt t n (by simpa using h) d
  | [], n, h, _ => absurd h (by simp)

theorem pyIndex_ok {α : Type} (l : List α) (index : Int) (d : α)
    (h : 0 ≤ index ∧ index < (l.length : Int)) :
    pyIndex l index = Except.ok (l.getD index.toNat d) := by
  rw [getD_of_lt l index.toNat (by omega) d]
  unfold pyIndex
  have hj : (if index < 0 then index + (l.length : Int) else index) = index :=
    if_neg (by omega)
  simp only [hj]
  rw [dif_pos h]

theorem pyIndex_neg {α : Type} (l : List α) (index : Int) (d : α)
    (h : -(l.length : Int) ≤ index ∧ index < 0) :
    pyIndex l index = Except.ok (l.getD (index + (l.length : Int)).toNat d) := by
  rw [getD_of_lt l (index + (l.length : Int)).toNat (by omega) d]
  unfold pyIndex
  have hj : (if index < 0 then index + (l.length : Int) else index)
      = index + (l.length : Int) := if_pos h.2
  simp only [hj]
  rw [dif_pos (show 0 ≤ index + (l.length : Int)
    ∧ index + (l.length : Int) < (l.length : Int) from ⟨by omega, by omega⟩)]

theorem pyIndex_err {α : Type} (l : List α) (index : Int)
    (h : index < -(l.length : Int) ∨ (l.length : Int) ≤ index) :
    pyIndex l index = Except.error "IndexError: list index out of range" := by
  unfold pyIndex
  rcases h with h | h
  · have hj : (if index < 0 then index + (l.length : Int) else index)
        = index + (l.length : Int) := if_pos (by omega)
    simp only [hj]
    rw [dif_neg (by omega)]
  · have hj : (if index < 0 then index + (l.length : Int) else index) = index :=
      if_neg (by omega)
    simp only [hj]
    rw [dif_neg (by omega)]

theorem lookup_of_mem {α : Type} (s : H5Store α) (k : String)
    (hk : k ∈ H5Store.keysOf s) : ∃ v, H5Store.lookup s k = some v := by
  unfold H5Store.keysOf at hk
  obtain ⟨e, hmem, hfst⟩ := List.mem_map.mp hk
  have hsome : (s.entries.find? (fun x => x.1 == k)).isSome := by
    rw [List.find?_isSome]
    exact ⟨e, hmem, by simp [hfst]⟩
  obtain ⟨w, hw⟩ := Option.isSome_iff_exists.mp hsome
  refine ⟨w.2, ?_⟩
  unfold H5Store.lookup
  rw [hw]
  rfl

theorem datasetGetitem_of_pyIndex_ok {α : Type} (s : H5Store α) (d : PyDataset)
    (index : Int) (k : String) (v : α)
    (hpi : pyIndex d.keys index = Except.ok k)
    (hv : H5Store.lookup s k = some v) :
    datasetGetitem s d index = Except.ok v := by
  unfold datasetGetitem
  rw [hpi]
  simp only [hv]

theorem datasetGetitem_of_pyIndex_err {α : Type} (s : H5Store α) (d : PyDataset)
    (index : Int) (e : String)
    (hpi : pyIndex d.keys index = Except.error e) :
    datasetGetitem s d index = Except.error e := by
  unfold datasetGetitem
  rw [hpi]

/-- Claim C8 (amended): `__getitem__` runs Python sequence indexing on the
handle's key list: an index in `[0, N)` returns the stored entry for the
key at that position, a negative index in `[-N, 0)` also succeeds
(wrapping to position `N + index` - this is where the claim as stated
fails), and only `index ≥ N` or `index < -N` raise the out-of-range
IndexError. -/
theorem dataset_getitem_spec {α : Type} (s : H5Store α) (sh : Bool)
    (σ : List String → List String)
    (hkeys : ∀ k ∈ (datasetInit s sh σ).keys, k ∈ H5Store.keysOf s)
    (index : Int) :
    (0 ≤ index ∧ index < (datasetLen (datasetInit s sh σ) : Int) →
      ∃ v, datasetGetitem s (datasetInit s sh σ) index = Except.ok v
        ∧ H5Store.lookup s ((datasetInit s sh σ).keys.getD index.toNat "") = some v)
    ∧ (-(datasetLen (datasetInit s sh σ) : Int) ≤ index ∧ index < 0 →
      ∃ v, datasetGetitem s (datasetInit s sh σ) index = Except.ok v
        ∧ H5Store.lookup s
            ((datasetInit s sh σ).keys.getD
              (index + (datasetLen (datasetInit s sh σ) : Int)).toNat "") = some v)
    ∧ (index < -(datasetLen (datasetInit s sh σ) : Int)
        ∨ (datasetLen (datasetInit s sh σ) : Int) ≤ index →
      datasetGetitem s (datasetInit s sh σ) index
        = Except.error "IndexError: list index out of range") := by
  refine ⟨?_, ?_, ?_⟩
  · intro h
    have hlt : index.toNat < (datasetInit s sh σ).keys.length := by
      simp only [datasetLen] at h
      omega
    have hmem : (datasetInit s sh σ).keys.getD index.toNat "" ∈ (datasetInit s sh σ).keys := by
      rw [getD_of_lt _ _ hlt]
      exact List.get_mem _ _ _
    obtain ⟨v, hv⟩ := lookup_of_mem s _ (hkeys _ hmem)
    exact ⟨v, datasetGetitem_of_pyIndex_ok s _ index _ v
      (pyIndex_ok _ index "" ⟨h.1, h.2⟩) hv, hv⟩
  · intro h
    have hlt : (index + (datasetLen (datasetInit s sh σ) : Int)).toNat
        < (datasetInit s sh σ).keys.length := by
      simp only [datasetLen] at h ⊢
      omega
    have hmem : (datasetInit s sh σ).keys.getD
        (index + (datasetLen (datasetInit s sh σ) : Int)).toNat "" ∈ (datasetInit s sh σ).keys := by
      rw [getD_of_lt _ _ hlt]
      exact List.get_mem _ _ _
    obtain ⟨v, hv⟩ := lookup_of_mem s _ (hkeys _ hmem)
    exact ⟨v, datasetGetitem_of_pyIndex_ok s _ index _ v
      (pyIndex_neg _ index "" ⟨h.1, h.2⟩) hv, hv⟩
  · intro h
    exact datasetGetitem_of_pyIndex_err s _ index _ (pyIndex_err _ index h)

theorem dataset_getitem_spec_witness :
    (∀ k ∈ (datasetInit storeCex false idKeys).keys, k ∈ H5Store.keysOf storeCex)
    ∧ (0 ≤ (0 : Int) ∧ (0 : Int) < (datasetLen (datasetInit storeCex false idKeys) : Int))
    ∧ ∃ v, datasetGetitem storeCex (datasetInit storeCex false idKeys) 0 = Except.ok v
        ∧ H5Store.lookup storeCex
            ((datasetInit storeCex false idKeys).keys.getD (0 : Int).toNat "") = some v :=
  ⟨by decide, ⟨by decide, by decide⟩,
   (dataset_getitem_spec storeCex false idKeys (by decide) 0).1 ⟨by decide, by decide⟩⟩

/-- Claim C8 counterexample: on a two-entry store, index `-1` lies outside
`[0, N)` yet `__getitem__` does not fail: Python list indexing wraps
negative indices, so it returns the entry at position 1. -/
theorem dataset_getitem_neg_cex :
    datasetGetitem storeCex (datasetInit storeCex false idKeys) (-1)
      = Except.ok 20 := by
  rfl

theorem datasetGetitem_nat {α : Type} (s : H5Store α) (d : PyDataset) (i : Nat)
    (hi : i < d.keys.length) :
    datasetGetitem s d (i : Int) = lookupExcept s (d.keys.getD i "") := by
  unfold datasetGetitem
  rw [pyIndex_ok d.keys (i : Int) "" ⟨by omega, by omega⟩]
  simp only [Int.toNat_natCast]
  rfl

theorem getitem_range_map {α : Type} (s : H5Store α) (keys : List String) :
    (List.range keys.length).map
        (fun i : Nat => datasetGetitem s { keys := keys } (i : Int))
      = keys.map (lookupExcept s) := by
  apply List.ext_get?
  intro i
  by_cases hi : i < keys.length
  · rw [List.get?_map, List.get?_map, List.get?_range (by simpa using hi),
      List.get?_eq_get hi]
    simp only [Option.map_some']
    rw [datasetGetitem_nat s { keys := keys } i hi]
    rw [getD_of_lt keys i hi]
  · rw [List.get?_map, List.get?_map]
    have h1 : (List.range keys.length).get? i = none := by
      rw [List.get?_eq_none]
      simpa using hi
    have h2 : keys.get? i = none := by
      rw [List.get?_eq_none]
      omega
    rw [h1, h2]
    rfl

/-- Claim C9 (confirmed): the length of a handle opened with
`shuffle=False` equals the number of stored entries, and for a handle
opened with `shuffle=True` - whatever permutation the `random.shuffle`
draw produced - the multiset of values returned by `__getitem__` over all
indices `0 .. N-1` is a permutation of the multiset returned by the
unshuffled handle: shuffling changes only the iteration order. -/
theorem dataset_len_and_shuffle_perm {α : Type} (s : H5Store α)
    (σ : List String → List String)
    (hσ : (σ (H5Store.keysOf s)).Perm (H5Store.keysOf s)) :
    datasetLen (datasetInit s false σ) = s.entries.length
    ∧ ((List.range (datasetLen (datasetInit s true σ))).map
          (fun i : Nat => datasetGetitem s (datasetInit s true σ) (i : Int))).Perm
        ((List.range (datasetLen (datasetInit s false σ))).map
          (fun i : Nat => datasetGetitem s (datasetInit s false σ) (i : Int))) := by
  constructor
  · simp [datasetLen, datasetInit, H5Store.keysOf]
  · show ((List.range (σ (H5Store.keysOf s)).length).map
          (fun i : Nat => datasetGetitem s { keys := σ (H5Store.keysOf s) } (i : Int))).Perm
        ((List.range (H5Store.keysOf s).length).map
          (fun i : Nat => datasetGetitem s { keys := H5Store.keysOf s } (i : Int)))
    rw [getitem_range_map, getitem_range_map]
    exact hσ.map (lookupExcept s)

theorem dataset_len_and_shuffle_perm_witness :
    ((revKeys (H5Store.keysOf storeCex)).Perm (H5Store.keysOf storeCex))
    ∧ (datasetLen (datasetInit storeCex false revKeys) = storeCex.entries.length
      ∧ ((List.range (datasetLen (datasetInit storeCex true revKeys))).map
            (fun i : Nat => datasetGetitem storeCex (datasetInit storeCex true revKeys) (i : Int))).Perm
          ((List.range (datasetLen (datasetInit storeCex false revKeys))).map
            (fun i : Nat => datasetGetitem storeCex (datasetInit storeCex false revKeys) (i : Int)))) :=
  ⟨by decide, dataset_len_and_shuffle_perm storeCex revKeys (by decide)⟩

theorem estimate_noise_sigma_source_witness :
    ((EstimatorEnum.WIENER = EstimatorEnum.WAVELET → "BayesShrink" ∈ wavelet_options)
      ∧ 0 < ([[FVal.num 2]] : List (List FVal)).length
      ∧ FVal.isNaN (npSum (filteredOf envCex (MethodArg.est EstimatorEnum.WIENER) false
          "BayesShrink" false (([[FVal.num 2]] : List (List FVal)).getD 0 []))) = false)
    ∧ ∃ cleans sigmas,
        estimate_noise envCex [[FVal.num 2]] (MethodArg.est EstimatorEnum.WIENER) false "BayesShrink" false
          = Except.ok (cleans, sigmas)
        ∧ sigmas.get? 0
            = some (envCex.estimate_sigma (([[FVal.num 2]] : List (List FVal)).getD 0 [])) :=
  ⟨⟨by decide, by decide, by decide⟩,
   estimate_noise_sigma_source envCex [[FVal.num 2]] EstimatorEnum.WIENER false "BayesShrink"
     false (by decide) 0 (by decide) (by decide)⟩
